import Mathlib

/-!
Shallow embedding of `src/shell.c` (a small line-oriented command
interpreter) and proofs about its parsing and process-orchestration
behaviour.  Pure computations (tokenization, the pipe split, dispatch
decisions) are translated directly; effectful code (fork, exec, pipe,
signal, chdir, waitpid) is modelled by explicit event traces produced by
functions parameterized over the outcomes of the underlying system calls
(a `World` record of oracles).
-/

namespace ShellC

/-- MAX_ARGS from shell.c: maximum number of tokens per command. -/
def MAX_ARGS : Nat := 64

/-- TOKEN_DELIMITERS from shell.c: space, tab and newline. -/
def isDelim (c : Char) : Bool := c = ' ' || c = '\t' || c = '\n'

/-- Core of the strtok loop in parse_line: split a character list on runs
of delimiters, producing the maximal non-delimiter substrings in order.
The accumulator holds the current token in reverse. -/
def tokenizeAux : List Char → List Char → List (List Char)
  | [], acc => if acc = [] then [] else [acc.reverse]
  | c :: cs, acc =>
    if isDelim c then
      if acc = [] then tokenizeAux cs []
      else acc.reverse :: tokenizeAux cs []
    else tokenizeAux cs (c :: acc)

/-- The token sequence the strtok loop in parse_line extracts from a line. -/
def tokenize (line : String) : List String :=
  (tokenizeAux line.data []).map (fun t => String.mk t)

/-- The pipe split performed in parse_line (lines 439-456 of shell.c):
find the first "|" token; command1 is everything before it, command2
everything after it.  `none` when no "|" token occurs. -/
def split_pipe : List String → Option (List String × List String)
  | [] => none
  | t :: rest =>
    if t = "|" then some ([], rest)
    else
      match split_pipe rest with
      | some (c1, c2) => some (t :: c1, c2)
      | none => none

/-- Child termination states reported by waitpid with WUNTRACED. -/
inductive WStatus
  | exited (code : Nat)
  | signaled (sig : Nat)
  | stopped (sig : Nat)
deriving DecidableEq

/-- WIFEXITED on a decoded wait status. -/
def WIFEXITED : WStatus → Bool
  | .exited _ => true
  | _ => false

/-- WIFSIGNALED on a decoded wait status. -/
def WIFSIGNALED : WStatus → Bool
  | .signaled _ => true
  | _ => false

/-- Signal dispositions used by the shell for SIGINT. -/
inductive SigDisp
  | ignored
  | dfl
deriving DecidableEq

/-- The two ends of a pipe. -/
inductive PipeEnd
  | read
  | write
deriving DecidableEq

/-- Observable events of the shell: error reports, signal-disposition
changes, process and descriptor operations, and dispatching a parsed
command to execute_command. -/
inductive Event
  | err (msg : String)
  | setSignal (d : SigDisp)
  | createPipe
  | forkChild (which : Nat)
  | closeEnd (e : PipeEnd)
  | closeChildEnd (e : PipeEnd)
  | dupTo (e : PipeEnd) (fd : Nat)
  | waitFor (pid : Nat)
  | killChild (pid : Nat)
  | execImage (argv : List String)
  | exitCode (n : Nat)
  | dispatch (args : List String)
deriving DecidableEq

/-- Events that create a process or take on a program image: exactly what
must be absent when nothing is spawned or executed. -/
def is_spawn : Event → Bool
  | .forkChild _ => true
  | .createPipe => true
  | .execImage _ => true
  | _ => false

/-- Outcomes of the system calls the shell makes, fixed up front so every
effectful function is a pure function of its inputs and this record. -/
structure World where
  home : Option String
  chdirOk : String → Bool
  forkOk : Bool
  execOk : Bool
  pid : Nat
  statuses : List WStatus
  pipeOk : Bool
  fork1Ok : Bool
  fork2Ok : Bool
  pid1 : Nat
  pid2 : Nat

/-- builtin_commands from shell.c. -/
def builtin_commands : List String := ["cd", "exit"]

/-- The dispatch loop of execute_command over builtin_commands. -/
def is_builtin (name : String) : Bool :=
  builtin_commands.any (fun b => name = b)

/-- handle_builtin from shell.c, modelled as a function of the argument
vector, the HOME environment value, a chdir success oracle and the current
working directory; returns the continuation status, the new working
directory and the reported errors.  execute_command only calls it with a
non-empty argument vector (args[0] is checked there), so the nil case is
unreachable from the dispatcher. -/
def handle_builtin (args : List String) (home : Option String)
    (chdirOk : String → Bool) (cwd : String) : Int × String × List Event :=
  match args with
  | [] => (1, cwd, [])
  | a0 :: rest =>
    if a0 = "exit" then (0, cwd, [])
    else if a0 = "cd" then
      match rest with
      | [] =>
        match home with
        | none =>
          (1, cwd, [.err "shell: cd requires an argument if HOME is not set."])
        | some h =>
          if chdirOk h then (1, h, []) else (1, cwd, [.err "shell"])
      | p :: _ =>
        if chdirOk p then (1, p, []) else (1, cwd, [.err "shell"])
    else (1, cwd, [.err "shell: built-in command not implemented."])

/-- Body of the child process in launch_process: restore the default
SIGINT disposition, then execvp; on exec failure report and exit 1. -/
def launch_child (args : List String) (execOk : Bool) : List Event :=
  .setSignal .dfl ::
    (if execOk then [.execImage args] else [.err "shell", .exitCode 1])

/-- The waitpid calls the parent in launch_process makes: one per loop
iteration, stopping after the first exited or signaled status. -/
def wait_trace (pid : Nat) : List WStatus → List Event
  | [] => []
  | s :: rest =>
    .waitFor pid :: (if WIFEXITED s || WIFSIGNALED s then [] else wait_trace pid rest)

/-- The status the wait loop in launch_process finishes with: the loop
repeats while the child is neither exited nor signaled. -/
def wait_loop : List WStatus → Option WStatus
  | [] => none
  | s :: rest =>
    if WIFEXITED s || WIFSIGNALED s then some s else wait_loop rest

/-- launch_process from shell.c: parent-side event trace, child body
trace (empty when fork fails), and the returned status (always 1). -/
def launch_process (args : List String) (w : World) :
    List Event × List Event × Int :=
  if w.forkOk then
    (wait_trace w.pid w.statuses, launch_child args w.execOk, 1)
  else
    ([.err "fork failed"], [], 1)

/-- execute_command from shell.c: empty command is a no-op returning 1;
a built-in first token routes to handle_builtin; anything else launches an
external process.  Result: continuation status, working directory, parent
event trace. -/
def execute_command (args : List String) (w : World) (cwd : String) :
    Int × String × List Event :=
  match args with
  | [] => (1, cwd, [])
  | a0 :: _ =>
    if is_builtin a0 then handle_builtin args w.home w.chdirOk cwd
    else
      let l := launch_process args w
      (l.2.2, cwd, l.1)

/-- Parent-side behaviour of handle_pipe from shell.c: reject empty
halves before any system call; otherwise create the pipe, fork twice,
close both ends, wait for both children; on either fork failure close
both ends (killing and reaping the first child when the second fork
fails).  Returns the event trace and the returned status (always 1). -/
def handle_pipe (c1 c2 : List String) (w : World) : List Event × Int :=
  if c1 = [] ∨ c2 = [] then
    ([.err "shell: Invalid command usage with pipe."], 1)
  else if ¬ w.pipeOk then
    ([.err "pipe failed"], 1)
  else if ¬ w.fork1Ok then
    ([.createPipe, .err "fork failed for first command",
      .closeEnd .read, .closeEnd .write], 1)
  else if ¬ w.fork2Ok then
    ([.createPipe, .forkChild 1, .err "fork failed for second command",
      .killChild w.pid1, .waitFor w.pid1,
      .closeEnd .read, .closeEnd .write], 1)
  else
    ([.createPipe, .forkChild 1, .forkChild 2,
      .closeEnd .read, .closeEnd .write,
      .waitFor w.pid1, .waitFor w.pid2], 1)

/-- Body of the first pipeline child: restore default SIGINT, close the
read end, redirect stdout onto the write end, close the write end, exec;
any dup2 or exec failure reports and exits 1 without taking the image. -/
def pipe_child1 (argv : List String) (dupOk execOk : Bool) : List Event :=
  .setSignal .dfl :: .closeChildEnd .read ::
    (if dupOk then
      .dupTo .write 1 :: .closeChildEnd .write ::
        (if execOk then [.execImage argv]
         else [.err "shell", .exitCode 1])
     else [.err "dup2 failed for first command", .exitCode 1])

/-- Body of the second pipeline child: restore default SIGINT, close the
write end, redirect stdin onto the read end, close the read end, exec;
same fatal-on-failure rule. -/
def pipe_child2 (argv : List String) (dupOk execOk : Bool) : List Event :=
  .setSignal .dfl :: .closeChildEnd .write ::
    (if dupOk then
      .dupTo .read 0 :: .closeChildEnd .read ::
        (if execOk then [.execImage argv]
         else [.err "shell", .exitCode 1])
     else [.err "dup2 failed for second command", .exitCode 1])

/-- parse_line from shell.c: detect a pipe character anywhere in the raw
line (strchr), tokenize with the strtok loop, fail hard past MAX_ARGS,
and when a standalone "|" token exists run handle_pipe in place and
return nothing; otherwise return the token vector. -/
def parse_line (line : String) (w : World) :
    Option (List String) × List Event :=
  let pipe_present := line.data.any (fun c => c == '|')
  let args := tokenize line
  if args.length > MAX_ARGS then
    (none, [.err "shell: Too many arguments."])
  else if pipe_present then
    match split_pipe args with
    | some (cmd1, cmd2) => (none, (handle_pipe cmd1 cmd2 w).1)
    | none => (some args, [])
  else (some args, [])

/-- The one signal-disposition action main performs at startup:
signal(SIGINT, SIG_IGN). -/
def startup_trace : List Event := [.setSignal .ignored]

/-- One iteration of the main read-parse-execute loop, after the line has
been read.  When parse_line returns nothing the C code executes
`continue`, which in a do-while jumps to the `while (status)` test, so
the previous status decides continuation unchanged; otherwise the
command is dispatched and its status is the new loop status. -/
def main_iteration (line : String) (w : World) (prevStatus : Int)
    (cwd : String) : Int × String × List Event :=
  match parse_line line w with
  | (none, tr) => (prevStatus, cwd, tr)
  | (some args, tr) =>
    let r := execute_command args w cwd
    (r.1, r.2.1, tr ++ .dispatch args :: r.2.2)

/-- A world in which every system call succeeds. -/
def wAll : World :=
  ⟨some "/root", fun _ => true, true, true, 100,
   [WStatus.exited 0], true, true, true, 101, 102⟩

/-- A line of 65 tokens: a standalone "|" followed by 64 copies of "a".
One token past MAX_ARGS, so parse_line rejects it. -/
def long_line : String :=
  String.mk ('|' :: (List.replicate 64 [' ', 'a']).flatten)

/-! Helper lemmas about the embedding. -/

/-- Every character of a token produced by the strtok loop comes from the
input characters or the pending accumulator. -/
theorem tokenizeAux_chars : ∀ (cs acc t : List Char), t ∈ tokenizeAux cs acc →
    ∀ c : Char, c ∈ t → c ∈ cs ∨ c ∈ acc
  | [], acc, t, ht, c, hc => by
    simp only [tokenizeAux] at ht
    split at ht
    · simp at ht
    · simp only [List.mem_singleton] at ht
      subst ht
      exact Or.inr (List.mem_reverse.mp hc)
  | ch :: cs, acc, t, ht, c, hc => by
    simp only [tokenizeAux] at ht
    split at ht
    · split at ht
      · rcases tokenizeAux_chars cs [] t ht c hc with h | h
        · exact Or.inl (List.mem_cons_of_mem _ h)
        · simp at h
      · rcases List.mem_cons.mp ht with h | h
        · subst h
          exact Or.inr (List.mem_reverse.mp hc)
        · rcases tokenizeAux_chars cs [] t h c hc with h2 | h2
          · exact Or.inl (List.mem_cons_of_mem _ h2)
          · simp at h2
    · rcases tokenizeAux_chars cs (ch :: acc) t ht c hc with h | h
      · exact Or.inl (List.mem_cons_of_mem _ h)
      · rcases List.mem_cons.mp h with h2 | h2
        · exact Or.inl (h2 ▸ List.mem_cons_self _ _)
        · exact Or.inr h2

/-- A standalone "|" token in the token sequence forces a pipe character
in the raw line, so the strchr pre-check in parse_line fires. -/
theorem pipe_char_of_pipe_token (line : String) (h : "|" ∈ tokenize line) :
    '|' ∈ line.data := by
  simp only [tokenize, List.mem_map] at h
  obtain ⟨t, ht, hmk⟩ := h
  have hdata : t = ['|'] := congrArg String.data hmk
  rcases tokenizeAux_chars line.data [] t ht '|' (by simp [hdata]) with h2 | h2
  · exact h2
  · simp at h2

/-- split_pipe splits exactly at the first "|" token: the input is the
first half, the marker, then the second half, and the first half is
marker-free. -/
theorem split_pipe_eq : ∀ (ts c1 c2 : List String),
    split_pipe ts = some (c1, c2) → ts = c1 ++ "|" :: c2 ∧ "|" ∉ c1
  | [], c1, c2, h => by simp [split_pipe] at h
  | t :: rest, c1, c2, h => by
    simp only [split_pipe] at h
    split at h
    · rename_i ht
      simp only [Option.some.injEq, Prod.mk.injEq] at h
      obtain ⟨h1, h2⟩ := h
      subst h1; subst h2; subst ht
      simp
    · rename_i ht
      split at h
      · rename_i l r heq
        simp only [Option.some.injEq, Prod.mk.injEq] at h
        obtain ⟨h1, h2⟩ := h
        subst h1; subst h2
        obtain ⟨hr, hn⟩ := split_pipe_eq rest l r heq
        refine ⟨by rw [hr]; rfl, ?_⟩
        intro hmem
        rcases List.mem_cons.mp hmem with h3 | h3
        · exact ht h3.symm
        · exact hn h3
      · exact absurd h (by simp)

/-- When a "|" token occurs, split_pipe succeeds. -/
theorem split_pipe_mem : ∀ (ts : List String), "|" ∈ ts →
    ∃ c1 c2, split_pipe ts = some (c1, c2)
  | [], h => by simp at h
  | t :: rest, h => by
    by_cases ht : t = "|"
    · exact ⟨[], rest, by simp [split_pipe, ht]⟩
    · have hrest : "|" ∈ rest := by
        rcases List.mem_cons.mp h with h1 | h1
        · exact absurd h1.symm ht
        · exact h1
      obtain ⟨c1, c2, hc⟩ := split_pipe_mem rest hrest
      exact ⟨t :: c1, c2, by simp [split_pipe, ht, hc]⟩

/-- launch_process always returns status 1 to the dispatcher. -/
theorem launch_process_ret (args : List String) (w : World) :
    (launch_process args w).2.2 = 1 := by
  by_cases h : w.forkOk <;> simp [launch_process, h]

/-- The continuation status of handle_builtin is 0 exactly on "exit". -/
theorem handle_builtin_fst (args : List String) (home : Option String)
    (ok : String → Bool) (cwd : String) :
    (handle_builtin args home ok cwd).1 =
      if args.head? = some "exit" then 0 else 1 := by
  cases args with
  | nil => simp [handle_builtin]
  | cons a0 rest =>
    by_cases h : a0 = "exit"
    · simp [handle_builtin, h]
    · by_cases h2 : a0 = "cd"
      · subst h2
        simp only [handle_builtin, if_neg h, List.head?]
        cases rest with
        | nil =>
          cases home with
          | none => simp [h]
          | some hd => by_cases hc : ok hd <;> simp [hc, h]
        | cons p r => by_cases hc : ok p <;> simp [hc, h]
      · simp [handle_builtin, h, h2]

/-- The parent-side trace of handle_pipe never changes a signal
disposition, never dispatches a command, and never reports the
too-many-arguments parse error. -/
theorem handle_pipe_parent_events (c1 c2 : List String) (w : World) :
    ∀ e ∈ (handle_pipe c1 c2 w).1,
      (∀ d, e ≠ .setSignal d) ∧ (∀ a, e ≠ .dispatch a)
        ∧ e ≠ .err "shell: Too many arguments." := by
  unfold handle_pipe
  by_cases h : c1 = [] ∨ c2 = []
  · rw [if_pos h]; simp
  · rw [if_neg h]
    by_cases hp : w.pipeOk
    · by_cases h1 : w.fork1Ok
      · by_cases h2 : w.fork2Ok <;> simp [hp, h1, h2]
      · simp [hp, h1]
    · simp [hp]

/-- Every event of the launch_process wait loop is a wait on the
specific forked child. -/
theorem wait_trace_all_waitFor (pid : Nat) : ∀ (l : List WStatus),
    ∀ e ∈ wait_trace pid l, e = .waitFor pid
  | [] => by simp [wait_trace]
  | s :: rest => by
    intro e he
    simp only [wait_trace, List.mem_cons] at he
    rcases he with h | h
    · exact h
    · split at h
      · simp at h
      · exact wait_trace_all_waitFor pid rest e h

/-- The wait loop of launch_process returns the first exited-or-signaled
status, skipping everything else. -/
theorem wait_loop_eq_find : ∀ (l : List WStatus),
    wait_loop l = l.find? (fun s => WIFEXITED s || WIFSIGNALED s)
  | [] => rfl
  | s :: rest => by
    simp only [wait_loop, List.find?]
    by_cases h : (WIFEXITED s || WIFSIGNALED s) = true
    · simp [h]
    · simp [h, wait_loop_eq_find rest]

/-- The events reported by handle_builtin are only error messages. -/
theorem handle_builtin_events (args : List String) (home : Option String)
    (ok : String → Bool) (cwd : String) :
    ∀ e ∈ (handle_builtin args home ok cwd).2.2, ∃ m, e = .err m := by
  cases args with
  | nil => simp [handle_builtin]
  | cons a0 rest =>
    simp only [handle_builtin]
    by_cases h : a0 = "exit"
    · simp [h]
    · rw [if_neg h]
      by_cases h2 : a0 = "cd"
      · rw [if_pos h2]
        cases rest with
        | nil =>
          cases home with
          | none => simp
          | some hd => by_cases hc : ok hd <;> simp [hc]
        | cons p r => by_cases hc : ok p <;> simp [hc]
      · rw [if_neg h2]; simp

/-- The parent side of launch_process only waits or reports a fork
failure; it never touches the signal disposition. -/
theorem launch_parent_events (args : List String) (w : World) :
    ∀ e ∈ (launch_process args w).1, (∀ d, e ≠ .setSignal d) := by
  by_cases h : w.forkOk
  · simp only [launch_process, if_pos h]
    intro e he d
    rw [wait_trace_all_waitFor w.pid w.statuses e he]
    simp
  · simp [launch_process, h]

/-- execute_command never changes a signal disposition in the parent. -/
theorem setSignal_not_mem_execute (args : List String) (w : World)
    (cwd : String) (d : SigDisp) :
    Event.setSignal d ∉ (execute_command args w cwd).2.2 := by
  cases args with
  | nil => simp [execute_command]
  | cons a0 rest =>
    simp only [execute_command]
    by_cases hb : is_builtin a0
    · rw [if_pos hb]
      intro hmem
      obtain ⟨m, hm⟩ := handle_builtin_events (a0 :: rest) w.home w.chdirOk cwd _ hmem
      exact Event.noConfusion hm
    · rw [if_neg hb]
      intro hmem
      exact launch_parent_events (a0 :: rest) w _ hmem d rfl

/-- parse_line never changes a signal disposition in the parent. -/
theorem setSignal_not_mem_parse (line : String) (w : World) (d : SigDisp) :
    Event.setSignal d ∉ (parse_line line w).2 := by
  simp only [parse_line]
  split
  · simp
  · split
    · split
      · rename_i c1 c2 heq
        intro hmem
        exact ((handle_pipe_parent_events c1 c2 w _ hmem).1 d) rfl
      · simp
    · simp

/-- parse_line never dispatches a command to execute_command itself. -/
theorem dispatch_not_mem_parse (line : String) (w : World) (a : List String) :
    Event.dispatch a ∉ (parse_line line w).2 := by
  simp only [parse_line]
  split
  · simp
  · split
    · split
      · rename_i c1 c2 heq
        intro hmem
        exact ((handle_pipe_parent_events c1 c2 w _ hmem).2.1 a) rfl
      · simp
    · simp

/-- The whole main-loop iteration never changes a signal disposition in
the interpreter process. -/
theorem setSignal_not_mem_main_iteration (line : String) (w : World)
    (prev : Int) (cwd : String) (d : SigDisp) :
    Event.setSignal d ∉ (main_iteration line w prev cwd).2.2 := by
  simp only [main_iteration]
  split
  · rename_i tr heq
    intro hmem
    exact setSignal_not_mem_parse line w d (by rw [heq]; exact hmem)
  · rename_i args tr heq
    intro hmem
    simp only [List.mem_append, List.mem_cons] at hmem
    rcases hmem with h | h | h
    · exact setSignal_not_mem_parse line w d (by rw [heq]; exact h)
    · exact Event.noConfusion h
    · exact setSignal_not_mem_execute args w cwd d h

/-! Claim theorems. -/

/-- C1: execute_command returns the stop signal (0) exactly when the
first token equals "exit", regardless of trailing arguments; every other
dispatch path — built-in cd, unimplemented built-ins, external commands,
and the empty command — returns the continue signal 1, and the empty
command is a no-op. -/
theorem execute_command_stop_iff_exit_token (args : List String) (w : World)
    (cwd : String) :
    ((execute_command args w cwd).1 = 0 ↔ args.head? = some "exit")
    ∧ execute_command [] w cwd = (1, cwd, []) := by
  refine ⟨?_, rfl⟩
  cases args with
  | nil => simp [execute_command]
  | cons a0 rest =>
    by_cases hb : is_builtin a0
    · have hexec : execute_command (a0 :: rest) w cwd
          = handle_builtin (a0 :: rest) w.home w.chdirOk cwd := by
        simp [execute_command, hb]
      rw [hexec, handle_builtin_fst]
      by_cases h : a0 = "exit" <;> simp [h]
    · have hne : ¬ (a0 = "exit") := fun hh => hb (by simp [is_builtin, builtin_commands, hh])
      have hone : (execute_command (a0 :: rest) w cwd).1 = 1 := by
        simp [execute_command, hb, launch_process_ret]
      rw [hone]
      simp [hne]

/-- C2 counterexample: parse_line is not execution-free — on the piped
line "a | b" it creates the pipe and forks both children itself, and
returns no Command and no Pipeline value to its caller. -/
theorem parse_line_executes_piped_line :
    (parse_line "a | b" wAll).1 = none
    ∧ Event.createPipe ∈ (parse_line "a | b" wAll).2
    ∧ Event.forkChild 1 ∈ (parse_line "a | b" wAll).2 := by decide

/-- C2 amended: for every input line whose token sequence contains no
standalone "|" token, parse_line is pure — its trace contains no
process-spawning or execution event, and it returns either a parse
failure or exactly the token sequence. -/
theorem parse_line_pure_without_pipe_token (line : String) (w : World)
    (h : "|" ∉ tokenize line) :
    (∀ e ∈ (parse_line line w).2, is_spawn e = false)
    ∧ ((parse_line line w).1 = none
        ∨ (parse_line line w).1 = some (tokenize line)) := by
  have hsp : split_pipe (tokenize line) = none := by
    cases hs : split_pipe (tokenize line) with
    | none => rfl
    | some p =>
      obtain ⟨c1, c2⟩ := p
      obtain ⟨heq, _⟩ := split_pipe_eq (tokenize line) c1 c2 hs
      have hmem : "|" ∈ tokenize line := by
        rw [heq]
        exact List.mem_append.mpr (Or.inr (List.mem_cons_self _ _))
      exact absurd hmem h
  constructor
  · simp only [parse_line]
    split
    · simp [is_spawn]
    · split
      · rw [hsp]
        simp
      · simp
  · simp only [parse_line]
    split
    · exact Or.inl rfl
    · split
      · rw [hsp]
        exact Or.inr rfl
      · exact Or.inr rfl

/-- C2 witness: on the plain line "ls -l" the amended purity claim holds
concretely. -/
theorem parse_line_pure_without_pipe_token_witness :
    (parse_line "ls -l" wAll).1 = none
    ∨ (parse_line "ls -l" wAll).1 = some (tokenize "ls -l") :=
  (parse_line_pure_without_pipe_token "ls -l" wAll (by decide)).2

/-- C3 counterexample: on "a | b | c" the split keeps the second "|"
token inside the second half, so the pipe token does appear in a
resulting half, and handle_pipe is invoked with it. -/
theorem pipe_token_remains_in_second_half :
    tokenize "a | b | c" = ["a", "|", "b", "|", "c"]
    ∧ split_pipe (tokenize "a | b | c") = some (["a"], ["b", "|", "c"])
    ∧ "|" ∈ ["b", "|", "c"]
    ∧ (parse_line "a | b | c" wAll).2 = (handle_pipe ["a"] ["b", "|", "c"] wAll).1 := by
  decide

/-- C3 amended: the split is at the first "|" token only — the token
sequence is the first half, the removed marker, then the second half;
the first half never contains "|", and when the sequence contains
exactly one "|" token neither half does (later markers stay in the
second half). -/
theorem split_at_first_pipe_marker (ts c1 c2 : List String)
    (h : split_pipe ts = some (c1, c2)) :
    ts = c1 ++ "|" :: c2
    ∧ "|" ∉ c1
    ∧ (ts.count "|" = 1 → "|" ∉ c2) := by
  obtain ⟨heq, hnotin⟩ := split_pipe_eq ts c1 c2 h
  refine ⟨heq, hnotin, ?_⟩
  intro hcount hmem
  rw [heq, List.count_append, List.count_cons_self] at hcount
  have h2 : 0 < c2.count "|" := List.count_pos_iff.mpr hmem
  omega

/-- C3 witness: the amended split property at the concrete token
sequence of "ls | wc". -/
theorem split_at_first_pipe_marker_witness :
    (["ls", "|", "wc"] : List String) = ["ls"] ++ "|" :: ["wc"]
    ∧ "|" ∉ (["ls"] : List String) :=
  ⟨(split_at_first_pipe_marker ["ls", "|", "wc"] ["ls"] ["wc"] (by decide)).1,
   (split_at_first_pipe_marker ["ls", "|", "wc"] ["ls"] ["wc"] (by decide)).2.1⟩

/-- C4: a pipeline with an empty half is rejected by handle_pipe with a
usage error and status 1 before any system call: no pipe is created, no
child is forked, nothing is executed. -/
theorem pipe_empty_half_rejected (c1 c2 : List String) (w : World)
    (h : c1 = [] ∨ c2 = []) :
    handle_pipe c1 c2 w = ([.err "shell: Invalid command usage with pipe."], 1)
    ∧ (∀ e ∈ (handle_pipe c1 c2 w).1, is_spawn e = false) := by
  have h1 : handle_pipe c1 c2 w
      = ([.err "shell: Invalid command usage with pipe."], 1) := by
    unfold handle_pipe
    rw [if_pos h]
  rw [h1]
  simp [is_spawn]

/-- C4 witness: the empty first half of "| ls" is rejected with no spawn
event. -/
theorem pipe_empty_half_rejected_witness :
    handle_pipe [] ["ls"] wAll
      = ([.err "shell: Invalid command usage with pipe."], 1) :=
  (pipe_empty_half_rejected [] ["ls"] wAll (Or.inl rfl)).1

/-- C5: a line of more than MAX_ARGS tokens is a hard parse failure — no
partial command is returned, the error is reported, and the main loop
continues with its previous status; a line of at most MAX_ARGS tokens
never produces the too-many-arguments error. -/
theorem too_many_tokens_hard_failure (line : String) (w : World)
    (prev : Int) (cwd : String) :
    ((tokenize line).length > MAX_ARGS →
      parse_line line w = (none, [.err "shell: Too many arguments."])
      ∧ main_iteration line w prev cwd
          = (prev, cwd, [.err "shell: Too many arguments."]))
    ∧ ((tokenize line).length ≤ MAX_ARGS →
        Event.err "shell: Too many arguments." ∉ (parse_line line w).2) := by
  constructor
  · intro h
    have hp : parse_line line w
        = (none, [.err "shell: Too many arguments."]) := by
      simp only [parse_line]
      rw [if_pos h]
    refine ⟨hp, ?_⟩
    simp only [main_iteration, hp]
  · intro h
    have hn : ¬ ((tokenize line).length > MAX_ARGS) := by omega
    simp only [parse_line]
    rw [if_neg hn]
    split
    · split
      · rename_i c1 c2 heq
        intro hmem
        exact (handle_pipe_parent_events c1 c2 w _ hmem).2.2 rfl
      · simp
    · simp

/-- C5 witness: the 65-token line is rejected whole while "ls" is not. -/
theorem too_many_tokens_hard_failure_witness :
    parse_line long_line wAll = (none, [.err "shell: Too many arguments."])
    ∧ Event.err "shell: Too many arguments." ∉ (parse_line "ls" wAll).2 :=
  ⟨((too_many_tokens_hard_failure long_line wAll 1 "/").1 (by decide)).1,
   (too_many_tokens_hard_failure "ls" wAll 1 "/").2 (by decide)⟩

/-- C6: once handle_pipe has created the channel it always closes both
ends in the parent — on the success path exactly after both forks and
before either wait, and on each fork-failure path as well — so no
descriptor of the channel remains open in the interpreter. -/
theorem parent_closes_both_pipe_ends (c1 c2 : List String) (w : World)
    (h1 : c1 ≠ []) (h2 : c2 ≠ []) :
    (Event.createPipe ∈ (handle_pipe c1 c2 w).1 →
      Event.closeEnd PipeEnd.read ∈ (handle_pipe c1 c2 w).1
      ∧ Event.closeEnd PipeEnd.write ∈ (handle_pipe c1 c2 w).1)
    ∧ (w.pipeOk = true → w.fork1Ok = true → w.fork2Ok = true →
        (handle_pipe c1 c2 w).1
          = [.createPipe, .forkChild 1, .forkChild 2,
             .closeEnd PipeEnd.read, .closeEnd PipeEnd.write,
             .waitFor w.pid1, .waitFor w.pid2]) := by
  have hcond : ¬ (c1 = [] ∨ c2 = []) := by simp [h1, h2]
  unfold handle_pipe
  rw [if_neg hcond]
  by_cases hp : w.pipeOk
  · by_cases hf1 : w.fork1Ok
    · by_cases hf2 : w.fork2Ok <;> simp [hp, hf1, hf2]
    · simp [hp, hf1]
  · simp [hp]

/-- C6 witness: on the all-success world with commands "a" and "b" the
parent trace closes both ends after both forks and before both waits. -/
theorem parent_closes_both_pipe_ends_witness :
    (handle_pipe ["a"] ["b"] wAll).1
      = [.createPipe, .forkChild 1, .forkChild 2,
         .closeEnd PipeEnd.read, .closeEnd PipeEnd.write,
         .waitFor wAll.pid1, .waitFor wAll.pid2] :=
  (parent_closes_both_pipe_ends ["a"] ["b"] wAll (by decide) (by decide)).2
    rfl rfl rfl

/-- C7: the interpreter sets SIGINT to ignored once at startup and never
changes any signal disposition again in the parent, while the single
external-command child and both pipeline children each restore the
default disposition as their first action, before taking on a program
image. -/
theorem signal_disposition_discipline (line : String) (w : World)
    (prev : Int) (cwd : String) (args argv : List String)
    (du ex : Bool) (d : SigDisp) :
    startup_trace = [Event.setSignal SigDisp.ignored]
    ∧ Event.setSignal d ∉ (main_iteration line w prev cwd).2.2
    ∧ (launch_child args ex).head? = some (.setSignal SigDisp.dfl)
    ∧ Event.setSignal d ∉ (launch_child args ex).tail
    ∧ (pipe_child1 argv du ex).head? = some (.setSignal SigDisp.dfl)
    ∧ Event.setSignal d ∉ (pipe_child1 argv du ex).tail
    ∧ (pipe_child2 argv du ex).head? = some (.setSignal SigDisp.dfl)
    ∧ Event.setSignal d ∉ (pipe_child2 argv du ex).tail
    ∧ (ex = true → Event.execImage args ∈ launch_child args ex) := by
  refine ⟨rfl, setSignal_not_mem_main_iteration line w prev cwd d,
    rfl, ?_, rfl, ?_, rfl, ?_, ?_⟩
  · by_cases hex : ex <;> simp [launch_child, hex]
  · by_cases hdu : du <;> by_cases hex : ex <;> simp [pipe_child1, hdu, hex]
  · by_cases hdu : du <;> by_cases hex : ex <;> simp [pipe_child2, hdu, hex]
  · intro hex
    simp [launch_child, hex]

/-- C7 witness: concrete instance of the signal discipline on the line
"ls -l" in the all-success world. -/
theorem signal_disposition_discipline_witness :
    Event.setSignal SigDisp.dfl ∉ (main_iteration "ls -l" wAll 1 "/").2.2
    ∧ Event.execImage ["ls", "-l"] ∈ launch_child ["ls", "-l"] true := by
  have h := signal_disposition_discipline "ls -l" wAll 1 "/" ["ls", "-l"]
    ["wc"] true true SigDisp.dfl
  exact ⟨h.2.1, h.2.2.2.2.2.2.2.2 rfl⟩

/-- C8: cd with one argument whose chdir fails reports the system error,
leaves the working directory unchanged and returns continue; cd with no
argument and no HOME reports an error and takes no action; cd with no
argument uses the HOME value when it is set. -/
theorem cd_failure_never_fatal (cwd p : String) (home : Option String)
    (ok : String → Bool) :
    (ok p = false →
      handle_builtin ["cd", p] home ok cwd = (1, cwd, [.err "shell"]))
    ∧ handle_builtin ["cd"] none ok cwd
        = (1, cwd, [.err "shell: cd requires an argument if HOME is not set."])
    ∧ (∀ h : String, ok h = true →
        handle_builtin ["cd"] (some h) ok cwd = (1, h, [])) := by
  refine ⟨?_, by simp [handle_builtin], ?_⟩
  · intro hok
    simp [handle_builtin, hok]
  · intro h hok
    simp [handle_builtin, hok]

/-- C8 witness: cd to a nonexistent path with a failing chdir leaves the
working directory unchanged and continues. -/
theorem cd_failure_never_fatal_witness :
    handle_builtin ["cd", "/nonexistent"] (some "/h") (fun _ => false) "/w"
      = (1, "/w", [.err "shell"]) :=
  (cd_failure_never_fatal "/w" "/nonexistent" (some "/h") (fun _ => false)).1 rfl

/-- C9: the parent of launch_process waits synchronously and only for the
specific forked child; the wait loop ignores stopped statuses and
finishes exactly at the first exited-or-signaled status, and when the
fork succeeds the whole parent-side behaviour is that wait loop. -/
theorem wait_loops_until_terminated (w : World) (args : List String)
    (pid n : Nat) (l : List WStatus) (s0 : WStatus) (rest : List WStatus) :
    wait_loop (WStatus.stopped n :: l) = wait_loop l
    ∧ (∀ s, wait_loop l = some s →
        (WIFEXITED s = true ∨ WIFSIGNALED s = true))
    ∧ wait_loop l = l.find? (fun s => WIFEXITED s || WIFSIGNALED s)
    ∧ (wait_trace pid (s0 :: rest)).head? = some (.waitFor pid)
    ∧ (∀ e ∈ wait_trace pid l, e = .waitFor pid)
    ∧ (w.forkOk = true →
        (launch_process args w).1 = wait_trace w.pid w.statuses) := by
  refine ⟨by simp [wait_loop, WIFEXITED, WIFSIGNALED], ?_,
    wait_loop_eq_find l, rfl, wait_trace_all_waitFor pid l, ?_⟩
  · intro s hs
    rw [wait_loop_eq_find] at hs
    have hterm := List.find?_some hs
    simpa using hterm
  · intro hf
    simp [launch_process, hf]

/-- C9 witness: a stopped report is skipped and the loop finishes at the
exit status; fork success makes the parent trace the wait loop. -/
theorem wait_loops_until_terminated_witness :
    wait_loop [WStatus.stopped 19, WStatus.exited 0]
      = wait_loop [WStatus.exited 0]
    ∧ (WIFEXITED (WStatus.exited 0) = true
        ∨ WIFSIGNALED (WStatus.exited 0) = true)
    ∧ (launch_process ["ls"] wAll).1 = wait_trace wAll.pid wAll.statuses := by
  have h := wait_loops_until_terminated wAll ["ls"] 7 19
    [WStatus.exited 0] (WStatus.exited 0) []
  exact ⟨h.1, h.2.1 (WStatus.exited 0) (by decide), h.2.2.2.2.2 rfl⟩

/-- C10 counterexample: a 65-token line containing the standalone "|"
token is rejected by the argument cap before the pipe handling, so no
pipeline is executed inside parse_line for it. -/
theorem pipeline_not_executed_past_cap :
    "|" ∈ tokenize long_line
    ∧ parse_line long_line wAll = (none, [.err "shell: Too many arguments."])
    ∧ (∀ e ∈ (parse_line long_line wAll).2, is_spawn e = false) := by decide

/-- C10 amended: for every line of at most MAX_ARGS tokens containing
the standalone "|" token, the pipeline is executed from inside
parse_line, parse_line returns nothing (indistinguishable from a parse
failure), the dispatcher is never invoked, and the main loop status is
unchanged. -/
theorem pipeline_executed_inside_parse (line : String) (w : World)
    (prev : Int) (cwd : String) (h : "|" ∈ tokenize line)
    (hlen : (tokenize line).length ≤ MAX_ARGS) :
    (parse_line line w).1 = none
    ∧ (∃ c1 c2, split_pipe (tokenize line) = some (c1, c2)
        ∧ (parse_line line w).2 = (handle_pipe c1 c2 w).1)
    ∧ main_iteration line w prev cwd = (prev, cwd, (parse_line line w).2)
    ∧ (∀ a, Event.dispatch a ∉ (main_iteration line w prev cwd).2.2) := by
  obtain ⟨c1, c2, hsp⟩ := split_pipe_mem (tokenize line) h
  have hchar : '|' ∈ line.data := pipe_char_of_pipe_token line h
  have hany : (line.data.any (fun c => c == '|')) = true := by
    rw [List.any_eq_true]
    exact ⟨'|', hchar, by simp⟩
  have hn : ¬ ((tokenize line).length > MAX_ARGS) := by omega
  have hpl : parse_line line w = (none, (handle_pipe c1 c2 w).1) := by
    simp only [parse_line]
    rw [if_neg hn, if_pos hany, hsp]
  refine ⟨by rw [hpl], ⟨c1, c2, hsp, by rw [hpl]⟩, ?_, ?_⟩
  · simp only [main_iteration, hpl]
  · intro a hmem
    have htr : (main_iteration line w prev cwd).2.2 = (handle_pipe c1 c2 w).1 := by
      simp only [main_iteration, hpl]
    rw [htr] at hmem
    exact (handle_pipe_parent_events c1 c2 w _ hmem).2.1 a rfl

/-- C10 witness: "exit | exit" does not stop the shell — the loop status
stays 1 and parse_line returns nothing. -/
theorem pipeline_executed_inside_parse_witness :
    (parse_line "exit | exit" wAll).1 = none
    ∧ main_iteration "exit | exit" wAll 1 "/"
        = (1, "/", (parse_line "exit | exit" wAll).2) := by
  have h := pipeline_executed_inside_parse "exit | exit" wAll 1 "/"
    (by decide) (by decide)
  exact ⟨h.1, h.2.2.1⟩

end ShellC
